import Mathlib

/-!
Verification of the relay repository (src/relay.py and src/relay/relay.py)
against its natural-language specification.

The development shallowly embeds the two Python scripts:

* `src/relay.py`: `watch_webpage` (the polling/relay loop with debounced
  error logging and success-gated dedup-state update), `is_tmate_session_alive`
  (liveness query), `send_keys_to_tmate` (chunked injector) and the readiness
  wait inside `start_relay`.
* `src/relay/relay.py`: `watch_web` (the simpler polling loop) and
  `send_to_tmate` (single-call injector).

Text is modelled as `List Char` (Python `str` indexing/slicing is by code
point).  External effects (HTTP fetches, subprocess exit statuses) are
modelled by environment/oracle inputs consumed by the step functions, and
observable behaviour (log lines, tmate control-socket calls) is recorded in
explicit event lists.
-/

namespace Relay

/-- Python whitespace predicate used by `str.strip()` (space, tab, newline,
carriage return, vertical tab, form feed). -/
def isPySpace (c : Char) : Bool :=
  c == ' ' || c == '\t' || c == '\n' || c == '\r' || c == Char.ofNat 11 || c == Char.ofNat 12

/-- Python `s.strip()` on a list of characters: drop leading and trailing
whitespace. -/
def pyStrip (l : List Char) : List Char :=
  ((l.dropWhile isPySpace).reverse.dropWhile isPySpace).reverse

/-- BeautifulSoup `element.get_text(strip=True)`: each contained text fragment
is stripped, fragments that strip to nothing are dropped, and the remainder is
joined with an empty separator.  This is the extraction applied to the
`div id="command"` element in both `watch_webpage` (src/relay.py line 41) and
`watch_web` (src/relay/relay.py line 81). -/
def extractText (frags : List (List Char)) : List Char :=
  (((frags.map pyStrip).filter (fun f => !f.isEmpty))).flatten

/-- Auxiliary for `chunksOf`, with fuel.  `chunksOfAux n fuel l` peels
`l.take n` and recurses on `l.drop n`.  The fuel is instantiated with
`l.length` in `chunksOf`; since every recursive call removes at least one
character (the chunk size `n` is positive at every call site, the source
default being 100), the fuel never runs out, and the fuel-exhausted branch is
chosen so that concatenation is preserved in all cases. -/
def chunksOfAux (n : Nat) : Nat → List Char → List (List Char)
  | _, [] => []
  | 0, l => [l]
  | fuel + 1, l => l.take n :: chunksOfAux n fuel (l.drop n)

/-- Python `[text[i:i+chunk_size] for i in range(0, len(text), chunk_size)]`
from `send_keys_to_tmate` (src/relay.py line 93): the consecutive
`n`-character slices of `text`, in order. -/
def chunksOf (n : Nat) (l : List Char) : List (List Char) :=
  chunksOfAux n l.length l

/-- The tmate control-socket calls the scripts can issue. -/
inductive TmateCall where
  | hasSession
  | clearLine
  | sendChunk (c : List Char)
  | sendEnter
  | sendTextWithEnter (c : List Char)

deriving instance DecidableEq for TmateCall

/-- Possible outcomes of executing the `tmate -S ... has-session` subprocess
(`subprocess.run(..., check=True)`, src/relay.py lines 67-72): the process
runs and exits 0, the process runs and exits nonzero (raising
`CalledProcessError`), or the process cannot be spawned at all (e.g. the
`tmate` binary is absent, raising `FileNotFoundError`). -/
inductive ProcOutcome where
  | exitZero
  | exitNonzero
  | spawnFail

deriving instance DecidableEq for ProcOutcome

/-- Result of calling `is_tmate_session_alive`: either a returned boolean, or
an exception propagating to the caller. -/
inductive AliveResult where
  | ok (b : Bool)
  | raised

deriving instance DecidableEq for AliveResult

/-- `is_tmate_session_alive` (src/relay.py lines 64-75): runs the
`has-session` query and catches only `subprocess.CalledProcessError`,
returning `False`; exit 0 returns `True`; a spawn failure is not caught and
propagates. -/
def is_tmate_session_alive (o : ProcOutcome) : AliveResult :=
  match o with
  | ProcOutcome.exitZero => AliveResult.ok true
  | ProcOutcome.exitNonzero => AliveResult.ok false
  | ProcOutcome.spawnFail => AliveResult.raised

/-- Environment for one call of `send_keys_to_tmate`: the liveness-check
result and the success/failure of each control-socket `send-keys` call
(the clear-line call, the chunk calls by index, and the final Enter). -/
structure InjectorEnv where
  alive : Bool
  clearOk : Bool
  chunkResult : Nat → Bool
  enterOk : Bool

/-- The chunk-sending loop of `send_keys_to_tmate` (src/relay.py lines
95-102): sends each chunk as its own `send-keys` call; the first failing call
raises `CalledProcessError`, aborting the remaining chunks.  Returns the calls
issued and whether all of them succeeded. -/
def sendChunksCalls (res : Nat → Bool) : Nat → List (List Char) → List TmateCall × Bool
  | _, [] => ([], true)
  | i, c :: cs =>
      if res i then
        let r := sendChunksCalls res (i + 1) cs
        (TmateCall.sendChunk c :: r.1, r.2)
      else ([TmateCall.sendChunk c], false)

/-- `send_keys_to_tmate(text, chunk_size)` (src/relay.py lines 77-116):
first queries liveness (`has-session`); if not alive, returns `False` with no
further control-socket calls.  Otherwise issues the clear-line (`C-u`)
`send-keys` call, then one `send-keys` call per chunk, then the final
`Enter` call; any failing call aborts the rest and the function returns
`False`.  Returns the list of control-socket calls issued and the boolean
result. -/
def send_keys_to_tmate (env : InjectorEnv) (text : List Char) (chunk_size : Nat) :
    List TmateCall × Bool :=
  if env.alive = false then ([TmateCall.hasSession], false)
  else if env.clearOk = false then ([TmateCall.hasSession, TmateCall.clearLine], false)
  else
    let r := sendChunksCalls env.chunkResult 0 (chunksOf chunk_size text)
    if r.2 = false then (TmateCall.hasSession :: TmateCall.clearLine :: r.1, false)
    else if env.enterOk = false then
      (TmateCall.hasSession :: TmateCall.clearLine :: (r.1 ++ [TmateCall.sendEnter]), false)
    else (TmateCall.hasSession :: TmateCall.clearLine :: (r.1 ++ [TmateCall.sendEnter]), true)

/-- The chunk payloads among a list of control-socket calls (the text sent
via `send-keys`, excluding the clear-line call and the Enter keystroke). -/
def sentChunks (calls : List TmateCall) : List (List Char) :=
  calls.filterMap (fun c =>
    match c with
    | TmateCall.sendChunk s => some s
    | _ => none)

/-- Observable events of the watch loops: log lines and injector activity. -/
inductive Ev where
  | sessionLostMsg
  | fetchAttempt
  | restoredMsg
  | lostMsg
  | commandShown (c : List Char)
  | inject (c : List Char)
  | errFetchMsg
  | newCommandMsg (c : List Char)
  | sendFailMsg
  | killSession

deriving instance DecidableEq for Ev

/-- `send_to_tmate(text)` (src/relay/relay.py lines 89-105): issues a single
`send-keys` call carrying the whole text plus `Enter`, with no liveness
precheck and no chunking; a `CalledProcessError` is swallowed after printing a
failure message.  `sendOk` is the outcome of that one subprocess call.
Returns the calls issued and the log lines printed. -/
def send_to_tmate (sendOk : Bool) (text : List Char) : List TmateCall × List Ev :=
  ([TmateCall.sendTextWithEnter text], if sendOk then [] else [Ev.sendFailMsg])

/-- The fetched document, as far as the loops inspect it: the `div
id="command"` element (if present) with its text fragments. -/
structure Fetched where
  command : Option (List (List Char))

deriving instance DecidableEq for Fetched

/-- Environment input for one iteration of `watch_webpage`: the liveness
check result at the top of the loop, the fetch outcome (`none` models a
`requests.RequestException`, including `raise_for_status`), and the result of
`send_keys_to_tmate` if it is invoked. -/
structure Tick where
  alive : Bool
  fetch : Option Fetched
  injectOk : Bool

deriving instance DecidableEq for Tick

/-- The loop-local state of `watch_webpage` (src/relay.py lines 19-20). -/
structure WState where
  last_text : Option (List Char)
  connection_error_shown : Bool

deriving instance DecidableEq for WState

/-- One iteration of the `while True` loop of `watch_webpage` (src/relay.py
lines 25-61).  Returns the updated state, the events of this iteration, and
whether the loop continues (`false` exactly when the liveness check at the
top fails and the loop breaks). -/
def watch_webpage_step (st : WState) (tk : Tick) : WState × List Ev × Bool :=
  if tk.alive = false then (st, [Ev.sessionLostMsg], false)
  else
    match tk.fetch with
    | none =>
        if st.connection_error_shown then (st, [Ev.fetchAttempt], true)
        else ({ st with connection_error_shown := true }, [Ev.fetchAttempt, Ev.lostMsg], true)
    | some pg =>
        let evs := if st.connection_error_shown
          then [Ev.fetchAttempt, Ev.restoredMsg] else [Ev.fetchAttempt]
        let st1 : WState := { st with connection_error_shown := false }
        match pg.command with
        | none => (st1, evs, true)
        | some frags =>
            let c := extractText frags
            if c ≠ [] ∧ some c ≠ st1.last_text then
              if tk.injectOk then
                ({ st1 with last_text := some c },
                  evs ++ [Ev.commandShown c, Ev.inject c], true)
              else (st1, evs ++ [Ev.commandShown c, Ev.inject c], true)
            else (st1, evs, true)

/-- Run `watch_webpage` over a list of per-iteration environments, stopping
early when an iteration breaks the loop. -/
def watch_webpage_run (st : WState) : List Tick → WState × List Ev
  | [] => (st, [])
  | tk :: rest =>
      let r := watch_webpage_step st tk
      if r.2.2 = true then
        let r2 := watch_webpage_run r.1 rest
        (r2.1, r.2.1 ++ r2.2)
      else (r.1, r.2.1)

/-- Environment input for one iteration of `watch_web`
(src/relay/relay.py): the fetch outcome and the outcome of the
`send-keys` subprocess call inside `send_to_tmate` if it is invoked. -/
structure WebTick where
  fetch : Option Fetched
  injectOk : Bool

deriving instance DecidableEq for WebTick

/-- One iteration of the `while True` loop of `watch_web` (src/relay/relay.py
lines 68-87).  A fetch failure prints an error line every time and continues;
when the dedup gate passes, `send_to_tmate` is invoked and `last_seen_text`
is then updated unconditionally, whether or not the send succeeded.  The loop
never breaks. -/
def watch_web_step (last_seen_text : Option (List Char)) (tk : WebTick) :
    Option (List Char) × List Ev :=
  match tk.fetch with
  | none => (last_seen_text, [Ev.fetchAttempt, Ev.errFetchMsg])
  | some pg =>
      match pg.command with
      | none => (last_seen_text, [Ev.fetchAttempt])
      | some frags =>
          let c := extractText frags
          if c ≠ [] ∧ some c ≠ last_seen_text then
            (some c,
              [Ev.fetchAttempt, Ev.newCommandMsg c, Ev.inject c]
                ++ (send_to_tmate tk.injectOk c).2)
          else (last_seen_text, [Ev.fetchAttempt])

/-- Run `watch_web` over a list of per-iteration environments. -/
def watch_web_run (last_seen_text : Option (List Char)) :
    List WebTick → Option (List Char) × List Ev
  | [] => (last_seen_text, [])
  | tk :: rest =>
      let r := watch_web_step last_seen_text tk
      let r2 := watch_web_run r.1 rest
      (r2.1, r.2 ++ r2.2)

/-- The commands passed to the injector, in order, among a list of events. -/
def injectedCmds (evs : List Ev) : List (List Char) :=
  evs.filterMap (fun e =>
    match e with
    | Ev.inject c => some c
    | _ => none)

/-- Number of occurrences of an event in an event list. -/
def countEv (e : Ev) : List Ev → Nat
  | [] => 0
  | x :: xs => (if x = e then 1 else 0) + countEv e xs

/-- Outcome of the readiness-wait loop in `start_relay` (src/relay.py lines
189-207): `readyProceed` = a `wait tmate-ready` attempt succeeded and the
loop `break`s; `timeoutAbort` = an attempt failed at or past the deadline and
`start_relay` prints the timeout error and returns; `notReadyProceed` = the
`while time.time() < timeout` condition became false, so the loop is exited
and execution falls through to the link-retrieval code without readiness ever
having been signalled and without any timeout error. -/
inductive ReadyOutcome where
  | readyProceed
  | timeoutAbort
  | notReadyProceed

deriving instance DecidableEq for ReadyOutcome

/-- The readiness-wait loop of `start_relay` (src/relay.py lines 191-207),
with wall-clock time in whole seconds starting at 0 and deadline 30.
`env i = (d, ok)` means the `i`-th `wait tmate-ready` attempt takes `d`
seconds and succeeds iff `ok` (a failure is `CalledProcessError` or
`TimeoutExpired`).  After a failed attempt the code checks the deadline,
returns with the timeout error if it has passed, and otherwise sleeps one
second and re-tests the `while` condition.  The fuel argument is instantiated
with the 30-second budget: every iteration advances the clock by at least one
second, so when the fuel is exhausted the clock has reached the deadline and
the loop exits by its condition, which is exactly the `notReadyProceed`
outcome. -/
def waitReadyAux (env : Nat → Nat × Bool) : Nat → Nat → Nat → ReadyOutcome
  | 0, _, _ => ReadyOutcome.notReadyProceed
  | fuel + 1, i, t =>
      if t < 30 then
        let a := env i
        if a.2 then ReadyOutcome.readyProceed
        else if 30 ≤ t + a.1 then ReadyOutcome.timeoutAbort
        else waitReadyAux env fuel (i + 1) (t + a.1 + 1)
      else ReadyOutcome.notReadyProceed

/-- The readiness wait of `start_relay` started at time 0. -/
def start_relay_waitReady (env : Nat → Nat × Bool) : ReadyOutcome :=
  waitReadyAux env 30 0 0

/-- An environment in which tmate never becomes ready and every
`wait tmate-ready` attempt fails immediately (e.g. the control socket is
absent, so tmate exits nonzero at once). -/
def instantFailEnv : Nat → Nat × Bool := fun _ => (0, false)

/-- The initial state of `watch_webpage`. -/
def initState : WState := ⟨none, false⟩

/-- A `watch_webpage` iteration whose fetch fails. -/
def failTick : Tick := ⟨true, none, true⟩

/-- A `watch_webpage` iteration whose fetch succeeds but whose document has
no `div id="command"`. -/
def succTick : Tick := ⟨true, some ⟨none⟩, true⟩

/-- A `watch_webpage` iteration delivering one command fragment, with the
session alive and injection succeeding. -/
def cmdTick (c : List Char) : Tick := ⟨true, some ⟨some [c]⟩, true⟩

/-- A `watch_webpage` iteration at which the session liveness check fails. -/
def deadTick : Tick := ⟨false, some ⟨none⟩, true⟩

/-- The command text of Scenario B. -/
def cmdLs : List Char := ("ls -la").data

/-- The second command text of Scenario B. -/
def cmdPwd : List Char := ("pwd").data

/-- Scenario B for `watch_webpage`: the polled source yields `ls -la` three
ticks in a row, then `pwd`, with the session alive and all injections
succeeding. -/
def scenarioB : List Tick :=
  [cmdTick cmdLs, cmdTick cmdLs, cmdTick cmdLs, cmdTick cmdPwd]

/-- Scenario B for `watch_web`. -/
def scenarioBWeb : List WebTick :=
  [⟨some ⟨some [cmdLs]⟩, true⟩, ⟨some ⟨some [cmdLs]⟩, true⟩,
    ⟨some ⟨some [cmdLs]⟩, true⟩, ⟨some ⟨some [cmdPwd]⟩, true⟩]

/-- An injector environment in which the session is alive and every
control-socket call succeeds. -/
def allOkEnv : InjectorEnv := ⟨true, true, fun _ => true, true⟩

/-- An injector environment in which the liveness check reports the session
dead. -/
def deadEnv : InjectorEnv := ⟨false, true, fun _ => true, true⟩

end Relay

namespace Relay

/-! ### Helper lemmas about whitespace stripping -/

theorem dropWhile_append_of_all {p : Char → Bool} {xs : List Char} (ys : List Char)
    (h : ∀ a ∈ xs, p a = true) :
    List.dropWhile p (xs ++ ys) = List.dropWhile p ys := by
  induction xs with
  | nil => rfl
  | cons x xs ih =>
      rw [List.cons_append, List.dropWhile_cons_of_pos (h x (List.mem_cons_self x xs))]
      exact ih (fun a ha => h a (List.mem_cons_of_mem x ha))

theorem dropWhile_append_of_ne_nil {p : Char → Bool} {xs : List Char} (ys : List Char)
    (h : List.dropWhile p xs ≠ []) :
    List.dropWhile p (xs ++ ys) = List.dropWhile p xs ++ ys := by
  induction xs with
  | nil => exact absurd rfl h
  | cons x xs ih =>
      by_cases hp : p x = true
      · rw [List.cons_append, List.dropWhile_cons_of_pos hp, List.dropWhile_cons_of_pos hp]
        rw [List.dropWhile_cons_of_pos hp] at h
        exact ih h
      · rw [List.cons_append, List.dropWhile_cons_of_neg hp, List.dropWhile_cons_of_neg hp,
          List.cons_append]

theorem pyStrip_of_all_space {l : List Char} (h : ∀ c ∈ l, isPySpace c = true) :
    pyStrip l = [] := by
  unfold pyStrip
  rw [List.dropWhile_eq_nil_iff.mpr h]
  rfl

theorem dropWhile_eq_nil_all {p : Char → Bool} {l : List Char}
    (h : List.dropWhile p l = []) : ∀ a ∈ l, p a = true :=
  List.dropWhile_eq_nil_iff.mp h

/-- Surrounding whitespace does not change the result of `str.strip()`. -/
theorem pyStrip_surround {w1 w2 : List Char} (s : List Char)
    (h1 : ∀ c ∈ w1, isPySpace c = true) (h2 : ∀ c ∈ w2, isPySpace c = true) :
    pyStrip (w1 ++ s ++ w2) = pyStrip s := by
  rw [List.append_assoc]
  by_cases hs : List.dropWhile isPySpace s = []
  · have hall : ∀ c ∈ s ++ w2, isPySpace c = true := by
      intro c hc
      rcases List.mem_append.mp hc with hc | hc
      · exact dropWhile_eq_nil_all hs c hc
      · exact h2 c hc
    have h12 : ∀ c ∈ w1 ++ (s ++ w2), isPySpace c = true := by
      intro c hc
      rcases List.mem_append.mp hc with hc | hc
      · exact h1 c hc
      · exact hall c hc
    rw [pyStrip_of_all_space h12]
    unfold pyStrip
    rw [hs]
    rfl
  · unfold pyStrip
    rw [dropWhile_append_of_all (s ++ w2) h1, dropWhile_append_of_ne_nil w2 hs,
      List.reverse_append]
    have hw2r : ∀ c ∈ w2.reverse, isPySpace c = true := by
      intro c hc
      exact h2 c (List.mem_reverse.mp hc)
    rw [dropWhile_append_of_all (List.dropWhile isPySpace s).reverse hw2r]

/-- `get_text(strip=True)` on a single text fragment is `str.strip()`. -/
theorem extractText_singleton (s : List Char) : extractText [s] = pyStrip s := by
  unfold extractText
  by_cases h : pyStrip s = []
  · simp [h]
  · simp [h]

end Relay

namespace Relay

/-! ### Helper lemmas about chunking -/

theorem chunksOfAux_nil (n fuel : Nat) : chunksOfAux n fuel [] = [] := by
  cases fuel <;> rfl

theorem chunksOfAux_flatten (n : Nat) :
    ∀ (fuel : Nat) (l : List Char), (chunksOfAux n fuel l).flatten = l := by
  intro fuel
  induction fuel with
  | zero =>
      intro l
      cases l with
      | nil => rfl
      | cons c cs => simp [chunksOfAux]
  | succ m ih =>
      intro l
      cases l with
      | nil => rfl
      | cons c cs =>
          show (List.take n (c :: cs) :: chunksOfAux n m (List.drop n (c :: cs))).flatten
            = c :: cs
          rw [List.flatten_cons, ih (List.drop n (c :: cs)), List.take_append_drop]

/-- The chunks concatenate back to the original text, in order. -/
theorem chunksOf_flatten (n : Nat) (l : List Char) : (chunksOf n l).flatten = l :=
  chunksOfAux_flatten n l.length l

theorem chunksOfAux_mem (n : Nat) (hn : 1 ≤ n) :
    ∀ (fuel : Nat) (l : List Char), l.length ≤ fuel →
      ∀ c ∈ chunksOfAux n fuel l, c ≠ [] ∧ c.length ≤ n := by
  intro fuel
  induction fuel with
  | zero =>
      intro l hl c hc
      have : l = [] := List.length_eq_zero.mp (Nat.le_zero.mp hl)
      subst this
      simp [chunksOfAux] at hc
  | succ m ih =>
      intro l hl c hc
      cases l with
      | nil => simp [chunksOfAux] at hc
      | cons x xs =>
          rw [show chunksOfAux n (m + 1) (x :: xs)
              = List.take n (x :: xs) :: chunksOfAux n m (List.drop n (x :: xs)) from rfl] at hc
          rcases List.mem_cons.mp hc with hc | hc
          · subst hc
            constructor
            · cases n with
              | zero => exact absurd hn (by decide)
              | succ k => simp [List.take]
            · rw [List.length_take]
              exact Nat.min_le_left n (x :: xs).length
          · have hlen : (List.drop n (x :: xs)).length ≤ m := by
              rw [List.length_drop]
              have : (x :: xs).length ≤ m + 1 := hl
              omega
            exact ih (List.drop n (x :: xs)) hlen c hc

theorem chunksOfAux_dropLast (n : Nat) (hn : 1 ≤ n) :
    ∀ (fuel : Nat) (l : List Char), l.length ≤ fuel →
      ∀ c ∈ (chunksOfAux n fuel l).dropLast, c.length = n := by
  intro fuel
  induction fuel with
  | zero =>
      intro l hl c hc
      have : l = [] := List.length_eq_zero.mp (Nat.le_zero.mp hl)
      subst this
      simp [chunksOfAux] at hc
  | succ m ih =>
      intro l hl c hc
      cases l with
      | nil => simp [chunksOfAux] at hc
      | cons x xs =>
          rw [show chunksOfAux n (m + 1) (x :: xs)
              = List.take n (x :: xs) :: chunksOfAux n m (List.drop n (x :: xs)) from rfl] at hc
          by_cases hrest : chunksOfAux n m (List.drop n (x :: xs)) = []
          · rw [hrest] at hc
            simp at hc
          · rw [List.dropLast_cons_of_ne_nil hrest] at hc
            have hdrop : List.drop n (x :: xs) ≠ [] := by
              intro hd
              rw [hd, chunksOfAux_nil] at hrest
              exact hrest rfl
            have hlt : n < (x :: xs).length := by
              by_contra hle
              exact hdrop (List.drop_eq_nil_iff.mpr (Nat.le_of_not_lt hle))
            rcases List.mem_cons.mp hc with hc | hc
            · subst hc
              rw [List.length_take]
              exact Nat.min_eq_left (Nat.le_of_lt hlt)
            · have hlen : (List.drop n (x :: xs)).length ≤ m := by
                rw [List.length_drop]
                have : (x :: xs).length ≤ m + 1 := hl
                omega
              exact ih (List.drop n (x :: xs)) hlen c hc

/-- Every chunk is non-empty and at most `n` characters (for positive `n`). -/
theorem chunksOf_mem (n : Nat) (hn : 1 ≤ n) (l : List Char) :
    ∀ c ∈ chunksOf n l, c ≠ [] ∧ c.length ≤ n :=
  chunksOfAux_mem n hn l.length l (Nat.le_refl _)

/-- Every chunk except possibly the last has exactly `n` characters. -/
theorem chunksOf_dropLast (n : Nat) (hn : 1 ≤ n) (l : List Char) :
    ∀ c ∈ (chunksOf n l).dropLast, c.length = n :=
  chunksOfAux_dropLast n hn l.length l (Nat.le_refl _)

/-! ### Helper lemmas about the injector call sequence -/

theorem sendChunksCalls_all_ok {res : Nat → Bool} (h : ∀ i, res i = true) :
    ∀ (L : List (List Char)) (i : Nat),
      sendChunksCalls res i L = (L.map TmateCall.sendChunk, true) := by
  intro L
  induction L with
  | nil => intro i; rfl
  | cons c cs ih =>
      intro i
      simp [sendChunksCalls, h i, ih (i + 1)]

theorem sentChunks_append (a b : List TmateCall) :
    sentChunks (a ++ b) = sentChunks a ++ sentChunks b := by
  simp [sentChunks]

theorem sentChunks_map (L : List (List Char)) :
    sentChunks (L.map TmateCall.sendChunk) = L := by
  induction L with
  | nil => rfl
  | cons c cs ih => simp [sentChunks] at ih ⊢; exact ih

/-! ### Helper lemmas about event counting -/

theorem countEv_append (e : Ev) (a b : List Ev) :
    countEv e (a ++ b) = countEv e a + countEv e b := by
  induction a with
  | nil => simp [countEv]
  | cons x xs ih => simp [countEv, ih]; omega

theorem countEv_replicate (e x : Ev) (m : Nat) :
    countEv e (List.replicate m x) = if x = e then m else 0 := by
  induction m with
  | zero => simp [countEv]
  | succ k ih =>
      rw [List.replicate_succ]
      by_cases hx : x = e
      · subst hx
        simp [countEv, ih]
        omega
      · simp [countEv, hx, ih]

end Relay

namespace Relay

/-! ### Claim C1 -/

/-- Claim C1 counterexample: in `watch_web` (src/relay/relay.py), a failed
injection advances `last_seen_text` anyway (first conjunct), and a subsequent
event carrying identical text is then suppressed rather than passed to the
injector again: over the two-tick run only one injector call occurs (second
conjunct).  This refutes the claim as stated over every relay-loop variant
and its `last_seen_text` boundary. -/
theorem watch_web_advances_boundary_on_failed_inject :
    (watch_web_step none ⟨some ⟨some [cmdLs]⟩, false⟩).1 = some cmdLs
    ∧ injectedCmds (watch_web_run none
        [⟨some ⟨some [cmdLs]⟩, false⟩, ⟨some ⟨some [cmdLs]⟩, true⟩]).2 = [cmdLs] := by
  decide

/-- Claim C1 (amended to `watch_webpage`, src/relay.py): the dedup boundary
`last_text` is updated only after an injection that returns success.  If
`send_keys_to_tmate` fails for a command, `last_text` is unchanged
afterwards, and a subsequent event carrying identical text is passed to the
injector again rather than suppressed. -/
theorem failed_inject_preserves_last_text (st : WState) (frags : List (List Char)) (b : Bool)
    (h1 : extractText frags ≠ []) (h2 : some (extractText frags) ≠ st.last_text) :
    (watch_webpage_step st ⟨true, some ⟨some frags⟩, false⟩).1.last_text = st.last_text
    ∧ Ev.inject (extractText frags)
        ∈ (watch_webpage_step st ⟨true, some ⟨some frags⟩, false⟩).2.1
    ∧ Ev.inject (extractText frags) ∈
        (watch_webpage_step (watch_webpage_step st ⟨true, some ⟨some frags⟩, false⟩).1
          ⟨true, some ⟨some frags⟩, b⟩).2.1 := by
  cases hcs : st.connection_error_shown <;> cases b <;>
    simp [watch_webpage_step, hcs, h1, h2]

/-- Witness for `failed_inject_preserves_last_text` at a concrete input. -/
theorem failed_inject_preserves_last_text_witness :
    extractText [cmdLs] ≠ []
    ∧ some (extractText [cmdLs]) ≠ initState.last_text
    ∧ ((watch_webpage_step initState ⟨true, some ⟨some [cmdLs]⟩, false⟩).1.last_text
          = initState.last_text
       ∧ Ev.inject (extractText [cmdLs])
           ∈ (watch_webpage_step initState ⟨true, some ⟨some [cmdLs]⟩, false⟩).2.1
       ∧ Ev.inject (extractText [cmdLs]) ∈
           (watch_webpage_step
             (watch_webpage_step initState ⟨true, some ⟨some [cmdLs]⟩, false⟩).1
             ⟨true, some ⟨some [cmdLs]⟩, true⟩).2.1) :=
  ⟨by decide, by decide,
    failed_inject_preserves_last_text initState [cmdLs] true (by decide) (by decide)⟩

/-! ### Claim C2 -/

/-- Claim C2 (confirmed): in both polling loops the dedup gate passes a
command to the injector iff its extracted text is non-empty and differs from
the current last-delivered text; and on the Scenario B input (`ls -la` three
ticks in a row, then `pwd`, session alive, all injections succeeding) exactly
two injector calls occur, in order `ls -la` then `pwd`, in both variants. -/
theorem dedup_gate_iff_and_scenarioB :
    (∀ (st : WState) (frags : List (List Char)) (b : Bool),
      Ev.inject (extractText frags) ∈ (watch_webpage_step st ⟨true, some ⟨some frags⟩, b⟩).2.1
        ↔ (extractText frags ≠ [] ∧ some (extractText frags) ≠ st.last_text))
    ∧ (∀ (last : Option (List Char)) (frags : List (List Char)) (b : Bool),
      Ev.inject (extractText frags) ∈ (watch_web_step last ⟨some ⟨some frags⟩, b⟩).2
        ↔ (extractText frags ≠ [] ∧ some (extractText frags) ≠ last))
    ∧ injectedCmds (watch_webpage_run initState scenarioB).2 = [cmdLs, cmdPwd]
    ∧ injectedCmds (watch_web_run none scenarioBWeb).2 = [cmdLs, cmdPwd] := by
  refine ⟨?_, ?_, by decide, by decide⟩
  · intro st frags b
    by_cases h1 : extractText frags = []
    · cases hcs : st.connection_error_shown <;> cases b <;>
        simp [watch_webpage_step, hcs, h1]
    · by_cases h2 : some (extractText frags) = st.last_text
      · cases hcs : st.connection_error_shown <;> cases b <;>
          simp [watch_webpage_step, hcs, h1, h2]
      · cases hcs : st.connection_error_shown <;> cases b <;>
          simp [watch_webpage_step, hcs, h1, h2]
  · intro last frags b
    by_cases h1 : extractText frags = []
    · cases b <;> simp [watch_web_step, send_to_tmate, h1]
    · by_cases h2 : some (extractText frags) = last
      · cases b <;> simp [watch_web_step, send_to_tmate, h1, h2]
      · cases b <;> simp [watch_web_step, send_to_tmate, h1, h2]

end Relay

namespace Relay

/-! ### Claim C3 -/

/-- Claim C3 counterexample: the claim asserts that for empty text the
clear-line call still occurs iff `inject` is called at all; but when the
liveness precondition fails, `send_keys_to_tmate` is called yet issues no
clear-line call (it stops after the `has-session` query). -/
theorem clear_line_missing_when_dead :
    TmateCall.clearLine ∉ (send_keys_to_tmate deadEnv ([] : List Char) 100).1 := by
  decide

/-- Claim C3 (amended): for every text passed to `send_keys_to_tmate` with
the liveness precondition passing and every control-socket call succeeding,
the chunks sent via `send-keys` (excluding the clear-line prefix and the
final Enter keystroke) are exactly the consecutive 100-character slices of
the text, in order; their concatenation reproduces the text
character-for-character; every chunk except possibly the last has exactly
100 characters and none exceeds 100 or is empty; and for empty text no chunk
calls are made while the clear-line call still occurs.  (The clear-line call
occurs iff the liveness check passes, not unconditionally whenever `inject`
is called, and a failing call truncates the sent sequence.) -/
theorem send_keys_chunking_roundtrip (env : InjectorEnv) (text : List Char)
    (ha : env.alive = true) (hc : env.clearOk = true)
    (hk : ∀ i, env.chunkResult i = true) (he : env.enterOk = true) :
    sentChunks (send_keys_to_tmate env text 100).1 = chunksOf 100 text
    ∧ (chunksOf 100 text).flatten = text
    ∧ (∀ c ∈ (chunksOf 100 text).dropLast, c.length = 100)
    ∧ (∀ c ∈ chunksOf 100 text, c ≠ [] ∧ c.length ≤ 100)
    ∧ (text = [] → sentChunks (send_keys_to_tmate env text 100).1 = [])
    ∧ TmateCall.clearLine ∈ (send_keys_to_tmate env text 100).1
    ∧ (send_keys_to_tmate env text 100).2 = true := by
  have hsk : send_keys_to_tmate env text 100
      = (TmateCall.hasSession :: TmateCall.clearLine ::
          ((chunksOf 100 text).map TmateCall.sendChunk ++ [TmateCall.sendEnter]), true) := by
    simp [send_keys_to_tmate, ha, hc, he, sendChunksCalls_all_ok hk]
  have hsent : sentChunks (send_keys_to_tmate env text 100).1 = chunksOf 100 text := by
    rw [hsk]
    show sentChunks ((chunksOf 100 text).map TmateCall.sendChunk ++ [TmateCall.sendEnter])
      = chunksOf 100 text
    rw [sentChunks_append, sentChunks_map]
    simp [sentChunks]
  refine ⟨hsent, chunksOf_flatten 100 text, chunksOf_dropLast 100 (by decide) text,
    chunksOf_mem 100 (by decide) text, ?_, ?_, ?_⟩
  · intro ht
    subst ht
    rw [hsent]
    rfl
  · rw [hsk]
    simp
  · rw [hsk]

/-- Witness for `send_keys_chunking_roundtrip` at a concrete input. -/
theorem send_keys_chunking_roundtrip_witness :
    allOkEnv.alive = true
    ∧ (sentChunks (send_keys_to_tmate allOkEnv cmdLs 100).1 = chunksOf 100 cmdLs
       ∧ (chunksOf 100 cmdLs).flatten = cmdLs
       ∧ (∀ c ∈ (chunksOf 100 cmdLs).dropLast, c.length = 100)
       ∧ (∀ c ∈ chunksOf 100 cmdLs, c ≠ [] ∧ c.length ≤ 100)
       ∧ (cmdLs = [] → sentChunks (send_keys_to_tmate allOkEnv cmdLs 100).1 = [])
       ∧ TmateCall.clearLine ∈ (send_keys_to_tmate allOkEnv cmdLs 100).1
       ∧ (send_keys_to_tmate allOkEnv cmdLs 100).2 = true) :=
  ⟨rfl, send_keys_chunking_roundtrip allOkEnv cmdLs rfl rfl (fun _ => rfl) rfl⟩

/-! ### Claim C4 -/

/-- Claim C4 counterexample: `watch_web` (src/relay/relay.py, a polled source
loop named in the claim) prints one error line per failed poll: two failed
polls followed by a success produce two error lines, not one, and no
"restored" transition at all. -/
theorem watch_web_logs_every_failed_poll :
    countEv Ev.errFetchMsg
      (watch_web_run none [⟨none, true⟩, ⟨none, true⟩, ⟨some ⟨none⟩, true⟩]).2 = 2
    ∧ countEv Ev.restoredMsg
        (watch_web_run none [⟨none, true⟩, ⟨none, true⟩, ⟨some ⟨none⟩, true⟩]).2 = 0 := by
  decide

/-- `watch_webpage` with the connection-error flag already set absorbs any
number of further failed polls without logging, then logs one restored
transition on the next success. -/
theorem watch_webpage_run_fail_shown (last : Option (List Char)) :
    ∀ M : Nat, watch_webpage_run ⟨last, true⟩ (List.replicate M failTick ++ [succTick])
      = (⟨last, false⟩, List.replicate M Ev.fetchAttempt ++ [Ev.fetchAttempt, Ev.restoredMsg]) := by
  intro M
  induction M with
  | zero => rfl
  | succ m ih =>
      rw [List.replicate_succ, List.cons_append, List.replicate_succ, List.cons_append]
      have hstep : watch_webpage_run ⟨last, true⟩
            (failTick :: (List.replicate m failTick ++ [succTick]))
          = ((watch_webpage_run ⟨last, true⟩ (List.replicate m failTick ++ [succTick])).1,
             Ev.fetchAttempt ::
               (watch_webpage_run ⟨last, true⟩ (List.replicate m failTick ++ [succTick])).2) := rfl
      rw [hstep, ih]

/-- Claim C4 (amended to `watch_webpage`, src/relay.py): `N` consecutive
failed polls followed by one successful poll produce exactly one
connection-lost message and exactly one connection-restored message, not
`N`, and the loop performs all `N + 1` fetches, never terminating on a fetch
failure. -/
theorem debounced_error_logging (N : Nat) (last : Option (List Char)) (hN : 1 ≤ N) :
    countEv Ev.lostMsg
      (watch_webpage_run ⟨last, false⟩ (List.replicate N failTick ++ [succTick])).2 = 1
    ∧ countEv Ev.restoredMsg
        (watch_webpage_run ⟨last, false⟩ (List.replicate N failTick ++ [succTick])).2 = 1
    ∧ countEv Ev.fetchAttempt
        (watch_webpage_run ⟨last, false⟩ (List.replicate N failTick ++ [succTick])).2
      = N + 1 := by
  obtain ⟨M, rfl⟩ : ∃ M, N = M + 1 := ⟨N - 1, by omega⟩
  rw [List.replicate_succ, List.cons_append]
  have hstep : watch_webpage_run ⟨last, false⟩
        (failTick :: (List.replicate M failTick ++ [succTick]))
      = ((watch_webpage_run ⟨last, true⟩ (List.replicate M failTick ++ [succTick])).1,
         Ev.fetchAttempt :: Ev.lostMsg ::
           (watch_webpage_run ⟨last, true⟩ (List.replicate M failTick ++ [succTick])).2) := rfl
  rw [hstep, watch_webpage_run_fail_shown last M]
  refine ⟨?_, ?_, ?_⟩
  · simp [countEv, countEv_append, countEv_replicate]
  · simp [countEv, countEv_append, countEv_replicate]
  · simp [countEv, countEv_append, countEv_replicate]
    omega

/-- Witness for `debounced_error_logging` at a concrete input. -/
theorem debounced_error_logging_witness :
    1 ≤ 2
    ∧ (countEv Ev.lostMsg
         (watch_webpage_run ⟨none, false⟩ (List.replicate 2 failTick ++ [succTick])).2 = 1
       ∧ countEv Ev.restoredMsg
           (watch_webpage_run ⟨none, false⟩ (List.replicate 2 failTick ++ [succTick])).2 = 1
       ∧ countEv Ev.fetchAttempt
           (watch_webpage_run ⟨none, false⟩ (List.replicate 2 failTick ++ [succTick])).2
         = 2 + 1) :=
  ⟨by decide, debounced_error_logging 2 none (by decide)⟩

end Relay

namespace Relay

/-! ### Claim C5 -/

/-- Claim C5 counterexample: the injector `send_to_tmate`
(src/relay/relay.py) performs no liveness check at all: even when its single
control-socket call fails (as it does when the session is dead), the
`send-keys` call is still issued — the call list is non-empty and contains no
`has-session` query. -/
theorem send_to_tmate_no_liveness_precheck :
    (send_to_tmate false cmdLs).1 = [TmateCall.sendTextWithEnter cmdLs]
    ∧ TmateCall.hasSession ∉ (send_to_tmate false cmdLs).1
    ∧ (send_to_tmate false cmdLs).1 ≠ [] := by
  decide

/-- Claim C5 (amended to `send_keys_to_tmate`, src/relay.py): every call to
the injector first issues the liveness query, and if the session is not
alive the injector returns failure immediately with no further
control-socket calls — no clear-line, no chunk `send-keys`, no Enter. -/
theorem send_keys_liveness_first :
    (∀ (env : InjectorEnv) (text : List Char) (n : Nat),
      (send_keys_to_tmate env text n).1.head? = some TmateCall.hasSession)
    ∧ ∀ (env : InjectorEnv) (text : List Char) (n : Nat), env.alive = false →
        send_keys_to_tmate env text n = ([TmateCall.hasSession], false) := by
  constructor
  · intro env text n
    simp only [send_keys_to_tmate]
    split
    · rfl
    · split
      · rfl
      · split
        · rfl
        · split
          · rfl
          · rfl
  · intro env text n ha
    simp [send_keys_to_tmate, ha]

/-- Witness for `send_keys_liveness_first` at a concrete input. -/
theorem send_keys_liveness_first_witness :
    deadEnv.alive = false
    ∧ (send_keys_to_tmate deadEnv cmdLs 100).1.head? = some TmateCall.hasSession
    ∧ send_keys_to_tmate deadEnv cmdLs 100 = ([TmateCall.hasSession], false) :=
  ⟨rfl, send_keys_liveness_first.1 deadEnv cmdLs 100,
    send_keys_liveness_first.2 deadEnv cmdLs 100 rfl⟩

/-! ### Claim C6 -/

/-- Claim C6 (code bug, evaluation at the failing input): in an environment
where readiness is never signalled and every `wait tmate-ready` attempt fails
immediately (first conjunct), the readiness wait of `start_relay`
(src/relay.py lines 191-207) does not abort with the timeout error: the
`while` condition exit is taken and execution falls through to the
link-retrieval code (`notReadyProceed`), contradicting the claim that
`start()` then fails with a timeout error, queries no links, and spawns no
background task. -/
theorem start_relay_wait_falls_through :
    (∀ i : Nat, (instantFailEnv i).2 = false)
    ∧ start_relay_waitReady instantFailEnv = ReadyOutcome.notReadyProceed :=
  ⟨fun _ => rfl, rfl⟩

/-! ### Claim C7 -/

/-- Claim C7 counterexample: `is_tmate_session_alive` catches only
`CalledProcessError`; when the `has-session` query cannot even be spawned
(e.g. the tmate binary is missing, a `FileNotFoundError`), the exception
propagates to the caller instead of being mapped to `False`.  (The authors
do catch `FileNotFoundError` for the `tmate -V` probe in `start_relay`,
src/relay.py line 129, but not here.) -/
theorem is_alive_raises_on_spawn_failure :
    is_tmate_session_alive ProcOutcome.spawnFail = AliveResult.raised := rfl

/-- Claim C7 (amended): for every outcome of the `has-session` query in which
the query process actually runs, `is_tmate_session_alive` never raises: a
nonzero exit status is mapped to `false`, and it returns `true` exactly when
the query exits zero. -/
theorem is_alive_exit_status (o : ProcOutcome) (h : o ≠ ProcOutcome.spawnFail) :
    (is_tmate_session_alive o = AliveResult.ok true ↔ o = ProcOutcome.exitZero)
    ∧ (is_tmate_session_alive o = AliveResult.ok false ↔ o = ProcOutcome.exitNonzero) := by
  cases o <;> simp_all [is_tmate_session_alive]

/-- Witness for `is_alive_exit_status` at a concrete input. -/
theorem is_alive_exit_status_witness :
    ProcOutcome.exitNonzero ≠ ProcOutcome.spawnFail
    ∧ ((is_tmate_session_alive ProcOutcome.exitNonzero = AliveResult.ok true
          ↔ ProcOutcome.exitNonzero = ProcOutcome.exitZero)
       ∧ (is_tmate_session_alive ProcOutcome.exitNonzero = AliveResult.ok false
          ↔ ProcOutcome.exitNonzero = ProcOutcome.exitNonzero)) :=
  ⟨by decide, is_alive_exit_status ProcOutcome.exitNonzero (by decide)⟩

/-! ### Claim C8 -/

/-- Claim C8 counterexample: when the liveness check at the loop top fails,
`watch_webpage` only prints the session-lost error and breaks; the
session-destroy operation (`kill-session`) is never invoked by the loop, so
it is not invoked exactly once as the claim states. -/
theorem no_destroy_on_session_loss :
    countEv Ev.killSession (watch_webpage_run initState [deadTick]).2 ≠ 1 := by
  decide

/-- Claim C8 (amended): if the session is reported not-alive at an iteration
boundary, `watch_webpage` stops within that iteration — no further fetch and
no injection is attempted, on this or any later tick — but no destroy
operation is invoked as a result (zero `kill-session` calls, not one); the
loop merely reports the loss and exits. -/
theorem session_loss_stops_loop (st : WState) (tk : Tick) (rest : List Tick)
    (h : tk.alive = false) :
    watch_webpage_run st (tk :: rest) = (st, [Ev.sessionLostMsg])
    ∧ countEv Ev.killSession (watch_webpage_run st (tk :: rest)).2 = 0
    ∧ Ev.fetchAttempt ∉ (watch_webpage_run st (tk :: rest)).2
    ∧ ∀ c, Ev.inject c ∉ (watch_webpage_run st (tk :: rest)).2 := by
  have hrun : watch_webpage_run st (tk :: rest) = (st, [Ev.sessionLostMsg]) := by
    simp [watch_webpage_run, watch_webpage_step, h]
  refine ⟨hrun, ?_, ?_, ?_⟩ <;> simp [hrun, countEv]

/-- Witness for `session_loss_stops_loop` at a concrete input. -/
theorem session_loss_stops_loop_witness :
    deadTick.alive = false
    ∧ (watch_webpage_run initState [deadTick] = (initState, [Ev.sessionLostMsg])
       ∧ countEv Ev.killSession (watch_webpage_run initState [deadTick]).2 = 0
       ∧ Ev.fetchAttempt ∉ (watch_webpage_run initState [deadTick]).2
       ∧ ∀ c, Ev.inject c ∉ (watch_webpage_run initState [deadTick]).2) :=
  ⟨rfl, session_loss_stops_loop initState deadTick [] rfl⟩

end Relay

namespace Relay

/-! ### Claim C9 -/

/-- Claim C9 (confirmed): the extracted command text is whitespace-normalized
(`get_text(strip=True)`) before any comparison.  First conjunct: a fetched
command that differs from the last delivered text only in surrounding
whitespace is treated as a duplicate — no injection is attempted and the
dedup state is unchanged.  Second conjunct: whitespace-only element content
counts as absent — no injection is attempted and the state is unchanged.
Third conjunct: whitespace-only inter-fragment content is removed by the
extraction. -/
theorem whitespace_normalized_dedup :
    (∀ (st : WState) (b : Bool) (w1 w2 s : List Char),
      (∀ c ∈ w1, isPySpace c = true) → (∀ c ∈ w2, isPySpace c = true) →
      st.last_text = some (extractText [s]) →
      (watch_webpage_step st ⟨true, some ⟨some [w1 ++ s ++ w2]⟩, b⟩).1.last_text
          = st.last_text
      ∧ ∀ c, Ev.inject c ∉ (watch_webpage_step st ⟨true, some ⟨some [w1 ++ s ++ w2]⟩, b⟩).2.1)
    ∧ (∀ (st : WState) (b : Bool) (frags : List (List Char)),
      (∀ f ∈ frags, ∀ c ∈ f, isPySpace c = true) →
      (watch_webpage_step st ⟨true, some ⟨some frags⟩, b⟩).1.last_text = st.last_text
      ∧ ∀ c, Ev.inject c ∉ (watch_webpage_step st ⟨true, some ⟨some frags⟩, b⟩).2.1)
    ∧ (∀ (f1 f2 w : List Char), (∀ c ∈ w, isPySpace c = true) →
      extractText [f1, w, f2] = extractText [f1, f2]) := by
  refine ⟨?_, ?_, ?_⟩
  · intro st b w1 w2 s h1 h2 hlast
    have hext : extractText [w1 ++ (s ++ w2)] = extractText [s] := by
      rw [extractText_singleton, extractText_singleton, ← List.append_assoc,
        pyStrip_surround s h1 h2]
    cases hcs : st.connection_error_shown <;>
      simp [watch_webpage_step, hcs, hext, hlast]
  · intro st b frags hall
    have hext : extractText frags = [] := by
      unfold extractText
      have hfil : (frags.map pyStrip).filter (fun f => !f.isEmpty) = [] := by
        rw [List.filter_eq_nil_iff]
        intro f hf
        obtain ⟨g, hg, rfl⟩ := List.mem_map.mp hf
        simp [pyStrip_of_all_space (hall g hg)]
      rw [hfil]
      rfl
    cases hcs : st.connection_error_shown <;>
      simp [watch_webpage_step, hcs, hext]
  · intro f1 f2 w hw
    unfold extractText
    simp only [List.map_cons, List.map_nil, pyStrip_of_all_space hw]
    by_cases hf1 : (pyStrip f1).isEmpty <;> by_cases hf2 : (pyStrip f2).isEmpty <;>
      simp [List.filter, hf1, hf2]

/-- Witness for `whitespace_normalized_dedup` at a concrete input. -/
theorem whitespace_normalized_dedup_witness :
    (∀ c ∈ [' '], isPySpace c = true)
    ∧ (WState.mk (some (extractText [cmdLs])) false).last_text = some (extractText [cmdLs])
    ∧ ((watch_webpage_step (WState.mk (some (extractText [cmdLs])) false)
          ⟨true, some ⟨some [[' '] ++ cmdLs ++ [' ']]⟩, true⟩).1.last_text
            = (WState.mk (some (extractText [cmdLs])) false).last_text
       ∧ ∀ c, Ev.inject c ∉ (watch_webpage_step (WState.mk (some (extractText [cmdLs])) false)
          ⟨true, some ⟨some [[' '] ++ cmdLs ++ [' ']]⟩, true⟩).2.1) :=
  ⟨by decide, rfl,
    whitespace_normalized_dedup.1 (WState.mk (some (extractText [cmdLs])) false) true
      [' '] [' '] cmdLs (by decide) (by decide) rfl⟩

/-! ### Claim C10 -/

/-- Claim C10 (confirmed): in both watch loops the last-delivered-text state
is either the initial `None` or a non-empty string — one step preserves the
invariant that it is never the empty string (first two conjuncts for
`watch_webpage` and `watch_web` respectively); and with the state still at
its initial `None`, any event whose extracted text is non-empty passes the
dedup gate and is submitted for injection (third conjunct). -/
theorem last_text_nonempty_invariant :
    (∀ (st : WState) (tk : Tick), (∀ c, st.last_text = some c → c ≠ []) →
      ∀ c, (watch_webpage_step st tk).1.last_text = some c → c ≠ [])
    ∧ (∀ (last : Option (List Char)) (tk : WebTick), (∀ c, last = some c → c ≠ []) →
      ∀ c, (watch_web_step last tk).1 = some c → c ≠ [])
    ∧ (∀ (frags : List (List Char)) (b es : Bool), extractText frags ≠ [] →
      Ev.inject (extractText frags) ∈
        (watch_webpage_step ⟨none, es⟩ ⟨true, some ⟨some frags⟩, b⟩).2.1) := by
  refine ⟨?_, ?_, ?_⟩
  · intro st tk hinv c
    obtain ⟨alive, fetch, iok⟩ := tk
    cases alive with
    | false => simp [watch_webpage_step]; exact fun h => hinv c h
    | true =>
        cases fetch with
        | none =>
            cases hcs : st.connection_error_shown <;>
              simp [watch_webpage_step, hcs] <;> exact fun h => hinv c h
        | some pg =>
            obtain ⟨cmd⟩ := pg
            cases cmd with
            | none => simp [watch_webpage_step]; exact fun h => hinv c h
            | some frags =>
                by_cases h1 : extractText frags = []
                · simp [watch_webpage_step, h1]; exact fun h => hinv c h
                · by_cases h2 : some (extractText frags) = st.last_text
                  · simp [watch_webpage_step, h1, h2]; exact fun h => hinv c h
                  · cases iok with
                    | false => simp [watch_webpage_step, h1, h2]; exact fun h => hinv c h
                    | true =>
                        simp [watch_webpage_step, h1, h2]
                        intro h
                        rw [← h]
                        exact h1
  · intro last tk hinv c
    obtain ⟨fetch, iok⟩ := tk
    cases fetch with
    | none => simp [watch_web_step]; exact fun h => hinv c h
    | some pg =>
        obtain ⟨cmd⟩ := pg
        cases cmd with
        | none => simp [watch_web_step]; exact fun h => hinv c h
        | some frags =>
            by_cases h1 : extractText frags = []
            · simp [watch_web_step, h1]; exact fun h => hinv c h
            · by_cases h2 : some (extractText frags) = last
              · simp [watch_web_step, h1, h2]; exact fun h => hinv c h
              · simp [watch_web_step, h1, h2]
                intro h
                rw [← h]
                exact h1
  · intro frags b es h1
    cases hcs : es <;> cases b <;> simp [watch_webpage_step, hcs, h1]

/-- Witness for `last_text_nonempty_invariant` at a concrete input. -/
theorem last_text_nonempty_invariant_witness :
    extractText [cmdLs] ≠ []
    ∧ Ev.inject (extractText [cmdLs]) ∈
        (watch_webpage_step ⟨none, false⟩ ⟨true, some ⟨some [cmdLs]⟩, true⟩).2.1 :=
  ⟨by decide, last_text_nonempty_invariant.2.2 [cmdLs] true false (by decide)⟩

end Relay
